import Mathlib

/-! kalman-ahrs: attitude estimator

A shallow embedding of `src/include/ahrs/sensor_readout.h`, `src/src/ahrs.cpp` and the
static members of `src/include/ahrs/ahrs.hpp`.

* `double` is modelled by a scalar type `α`; every theorem takes `α := ℝ`, the
  definitions that use only field operations stay generic so that they can be
  evaluated over `ℚ`.
* The `<cmath>` functions are the real ones: `sin`, `cos`, `tan`, `sqrt` are
  `Real.sin`, `Real.cos`, `Real.tan`, `Real.sqrt`, and `atan2 y x` is the
  principal argument of `x + y·i`.
* The sensors are outside the embedding: a cycle receives the three readings
  `gyro.read()`, `acc.read()`, `mag.read()` as arguments.
* An element access `a[i][j]` goes through the unchecked `operator[]`: it
  addresses the element at row-major offset `i * M + j` of the contiguous
  storage, and the accessors return `none` when that offset falls outside the
  array. `array_2d.read_checked` is the access with each index checked against
  its own dimension.
* The step `Kalman::update` is not among the sources; a cycle takes it as a
  parameter, so every statement about `update` holds for every such step.
-/

namespace ahrs

/-! ## sensor_readout.h -/

/-- The struct `sensor_readout` with its fields `x`, `y`, `z`. -/
structure sensor_readout (α : Type) where
  x : α
  y : α
  z : α
deriving DecidableEq

namespace sensor_readout

variable {α : Type}

/-- The overload `element_wise(const sensor_readout rhs, BinaryOperation operation)`. -/
def element_wise (self rhs : sensor_readout α) (operation : α → α → α) : sensor_readout α :=
  ⟨operation self.x rhs.x, operation self.y rhs.y, operation self.z rhs.z⟩

/-- The overload `element_wise(const double rhs, BinaryOperation operation)`. -/
def element_wise_scalar (self : sensor_readout α) (rhs : α) (operation : α → α → α) :
    sensor_readout α :=
  ⟨operation self.x rhs, operation self.y rhs, operation self.z rhs⟩

/-- The operator `operator==`. -/
def op_eq [DecidableEq α] (self rhs : sensor_readout α) : Bool :=
  decide (self.x = rhs.x) && decide (self.y = rhs.y) && decide (self.z = rhs.z)

/-- The operator `operator!=`. -/
def op_ne [DecidableEq α] (self rhs : sensor_readout α) : Bool :=
  decide (self.x ≠ rhs.x) || decide (self.y ≠ rhs.y) || decide (self.z ≠ rhs.z)

/-- The operator `operator+` at `T = sensor_readout`. -/
def op_add [Add α] (self rhs : sensor_readout α) : sensor_readout α :=
  self.element_wise rhs (fun a b => a + b)

/-- The operator `operator+` at an arithmetic `T`, converted to `double`. -/
def op_add_scalar [Add α] (self : sensor_readout α) (rhs : α) : sensor_readout α :=
  self.element_wise_scalar rhs (fun a b => a + b)

/-- The operator `operator-` at `T = sensor_readout`. -/
def op_sub [Sub α] (self rhs : sensor_readout α) : sensor_readout α :=
  self.element_wise rhs (fun a b => a - b)

/-- The operator `operator-` at an arithmetic `T`, converted to `double`. -/
def op_sub_scalar [Sub α] (self : sensor_readout α) (rhs : α) : sensor_readout α :=
  self.element_wise_scalar rhs (fun a b => a - b)

/-- The operator `operator*` at `T = sensor_readout`. -/
def op_mul [Mul α] (self rhs : sensor_readout α) : sensor_readout α :=
  self.element_wise rhs (fun a b => a * b)

/-- The operator `operator*` at an arithmetic `T`, converted to `double`. -/
def op_mul_scalar [Mul α] (self : sensor_readout α) (rhs : α) : sensor_readout α :=
  self.element_wise_scalar rhs (fun a b => a * b)

/-- The operator `operator/` at `T = sensor_readout`. -/
def op_div [Div α] (self rhs : sensor_readout α) : sensor_readout α :=
  self.element_wise rhs (fun a b => a / b)

/-- The operator `operator/` at an arithmetic `T`, converted to `double`. -/
def op_div_scalar [Div α] (self : sensor_readout α) (rhs : α) : sensor_readout α :=
  self.element_wise_scalar rhs (fun a b => a / b)

end sensor_readout

/-! ## Fixed-size arrays (`ahrs/numeric.h`) -/

/-- Modelled from the spec: the type `array_2d<T, N, M>` of `ahrs/numeric.h`, a header that
is not among the sources. It is `N` rows of `M` columns (the "4×1 real column", "A (4×4)",
"B (4×2)", "H (2×4)" of the data model), written row by row as the initialisers of `make_A`,
`make_B` and `make_H` write it, and stored contiguously in that order. -/
abbrev array_2d (α : Type) (N M : ℕ) : Type := Fin N → Fin M → α

namespace array_2d

variable {α : Type} {N M : ℕ}

/-- The row-major offset of the element `a[i][j]` of an array with `M` columns. -/
def offset (M i j : ℕ) : ℕ := i * M + j

/-- The checked condition on an access `a[i][j]`: both indices are within their dimension. -/
def in_range (N M i j : ℕ) : Bool := decide (i < N) && decide (j < M)

theorem row_lt {N M k : ℕ} (h : k < N * M) : k / M < N :=
  Nat.div_lt_of_lt_mul (by rwa [Nat.mul_comm] at h)

theorem col_lt {N M k : ℕ} (h : k < N * M) : k % M < M :=
  Nat.mod_lt _ (Nat.pos_of_ne_zero (fun hM => by subst hM; simp at h))

/-- The read `a[i][j]` through the unchecked `operator[]`: the element stored at row-major
offset `i * M + j`; `none` when that offset lies outside the `N * M` elements of the array. -/
def read (a : array_2d α N M) (i j : ℕ) : Option α :=
  if h : offset M i j < N * M then
    some (a ⟨offset M i j / M, row_lt h⟩ ⟨offset M i j % M, col_lt h⟩)
  else none

/-- The assignment `a[i][j] = v` through the unchecked `operator[]`: the element stored at
row-major offset `i * M + j` becomes `v`, the others stay; `none` when that offset lies
outside the `N * M` elements of the array. -/
def write (a : array_2d α N M) (i j : ℕ) (v : α) : Option (array_2d α N M) :=
  if offset M i j < N * M then
    some (fun r c =>
      if r.val = offset M i j / M ∧ c.val = offset M i j % M then v else a r c)
  else none

/-- The read `a[i][j]` with both indices checked against their dimension, as `at` does. -/
def read_checked (a : array_2d α N M) (i j : ℕ) : Option α :=
  if h : i < N ∧ j < M then some (a ⟨i, h.1⟩ ⟨j, h.2⟩) else none

/-- Modelled from the spec: the matrix sum of `ahrs/numeric.h`, a header that is not among
the sources ("add" of the dense linear-algebra primitive): entry by entry. -/
def add [Add α] (a b : array_2d α N M) : array_2d α N M :=
  fun i j => a i j + b i j

/-- Modelled from the spec: the matrix product of `ahrs/numeric.h`, a header that is not
among the sources ("multiply" of the dense linear-algebra primitive): entry `(i, j)` is the
sum over `k` of `a[i][k] * b[k][j]`. -/
def mul {K : ℕ} [Mul α] [AddCommMonoid α] (a : array_2d α N K) (b : array_2d α K M) :
    array_2d α N M :=
  fun i j => ∑ k : Fin K, a i k * b k j

end array_2d

/-! ## The filter object (`ahrs/kalman.h`) -/

/-- Modelled from the spec: the data members of class `Kalman` of `ahrs/kalman.h`, a header
that is not among the sources: the model matrices `A` (4×4), `B` (4×2), `H` (2×4), the
covariances `P` (4×4), `Q` (4×4), `R` (2×2) and the 4×1 state vector `x`. -/
structure Kalman (α : Type) where
  A : array_2d α 4 4
  B : array_2d α 4 2
  H : array_2d α 2 4
  P : array_2d α 4 4
  Q : array_2d α 4 4
  R : array_2d α 2 2
  x : array_2d α 4 1

/-- The type of `Kalman::update(control, measurement)`, whose body is not among the sources:
from the filter, the 2×1 control and the 2×1 measurement it gives the 4×1 state vector it
returns and the filter it leaves behind. Every cycle below takes it as a parameter. -/
abbrev KalmanStep (α : Type) : Type :=
  Kalman α → array_2d α 2 1 → array_2d α 2 1 → array_2d α 4 1 × Kalman α

/-! ## ahrs.cpp -/

/-- The function `std::atan2(y, x)` over the reals: the principal argument of `x + y·i`, in
`(-π, π]`, and `0` at the origin. -/
noncomputable def atan2 (y x : ℝ) : ℝ := Complex.arg ⟨x, y⟩

/-- The function `to_deg`. -/
noncomputable def to_deg (rad : ℝ) : ℝ := rad * 180 / Real.pi

/-- The static function `calc_roll` of `ahrs.cpp`. -/
noncomputable def calc_roll (acc : sensor_readout ℝ) : ℝ :=
  atan2 acc.y (Real.sqrt (acc.x ^ 2 + acc.z ^ 2))

/-- The static function `calc_pitch` of `ahrs.cpp`. -/
noncomputable def calc_pitch (acc : sensor_readout ℝ) : ℝ :=
  atan2 (-acc.x) (Real.sqrt (acc.y ^ 2 + acc.z ^ 2))

/-- The static function `calc_yaw` of `ahrs.cpp`. -/
noncomputable def calc_yaw (roll pitch : ℝ) (mag : sensor_readout ℝ) : ℝ :=
  let horizon_plane_x :=
    mag.x * Real.cos pitch + mag.y * Real.sin pitch * Real.sin roll +
      mag.z * Real.sin pitch * Real.cos roll
  let horizon_plane_y := mag.y * Real.cos roll - mag.z * Real.sin roll
  atan2 (-horizon_plane_y) horizon_plane_x

/-- The function `get_roll_from_state_vector`: `sv[0][0]`. -/
def get_roll_from_state_vector {α : Type} (sv : array_2d α 4 1) : Option α :=
  array_2d.read sv 0 0

/-- The function `get_pitch_from_state_vector`: `sv[0][2]`. On the 4×1 array the column
index 2 is beyond the single column; the unchecked access lands on offset 2, the element of
row 2. -/
def get_pitch_from_state_vector {α : Type} (sv : array_2d α 4 1) : Option α :=
  array_2d.read sv 0 2

/-- The function `get_roll_from_state_vector` with its access `sv[0][0]` made through the
checked access. -/
def get_roll_from_state_vector_checked {α : Type} (sv : array_2d α 4 1) : Option α :=
  array_2d.read_checked sv 0 0

/-- The function `get_pitch_from_state_vector` with its access `sv[0][2]` made through the
checked access. -/
def get_pitch_from_state_vector_checked {α : Type} (sv : array_2d α 4 1) : Option α :=
  array_2d.read_checked sv 0 2

/-- The function `make_A`; `dtc` is `dt.count()`. -/
def make_A {α : Type} [Zero α] [One α] [Neg α] (dtc : α) : array_2d α 4 4 :=
  ![![1, -dtc, 0, 0],
    ![0, 1, 0, 0],
    ![0, 0, 1, -dtc],
    ![0, 0, 0, 1]]

/-- The function `make_B`; `dtc` is `dt.count()`. -/
def make_B {α : Type} [Zero α] (dtc : α) : array_2d α 4 2 :=
  ![![dtc, 0], ![0, 0], ![0, dtc], ![0, 0]]

/-- The function `make_H`. -/
def make_H {α : Type} [Zero α] [One α] : array_2d α 2 4 :=
  ![![1, 0, 0, 0], ![0, 0, 1, 0]]

/-- The data members of class `Ahrs` that `ahrs.cpp` computes with: the filter `kalman` and
the last output `state`. The three sensor references are outside the embedding. -/
structure Ahrs (α : Type) where
  kalman : Kalman α
  state : sensor_readout α

namespace Ahrs

variable {α : Type}

/-- The constructor `Ahrs::Ahrs(gyro, acc, mag, dt)`: the filter is built from `make_A(dt)`,
`make_B(dt)` and `make_H()`. What the constructor of `Kalman` puts in `P`, `Q`, `R`, `x`, and
the initial value of `state`, are not in the sources and are parameters. -/
def ctor [Zero α] [One α] [Neg α] (dt : α) (P Q : array_2d α 4 4) (R : array_2d α 2 2)
    (x : array_2d α 4 1) (state : sensor_readout α) : Ahrs α :=
  { kalman := { A := make_A dt, B := make_B dt, H := make_H, P := P, Q := Q, R := R, x := x }
    state := state }

/-- The method `Ahrs::set_dt`; `dt` is `dt.count()`. -/
def set_dt [Neg α] (self : Ahrs α) (dt : α) : Option (Ahrs α) := do
  let A ← array_2d.write self.kalman.A 0 1 (-dt)
  let A ← array_2d.write A 2 3 (-dt)
  let B ← array_2d.write self.kalman.B 0 0 dt
  let B ← array_2d.write B 2 1 dt
  pure { self with kalman := { self.kalman with A := A, B := B } }

/-- The method `Ahrs::calc_euler_angles_rates`. -/
noncomputable def calc_euler_angles_rates (self : Ahrs ℝ) (gyro_read : sensor_readout ℝ) :
    array_2d ℝ 2 1 :=
  let roll_rate :=
    gyro_read.x + Real.sin self.state.x * Real.tan self.state.y * gyro_read.y +
      Real.cos self.state.x * Real.tan self.state.y * gyro_read.z
  let pitch_rate := Real.cos self.state.x * gyro_read.y - Real.sin self.state.x * gyro_read.z
  ![![roll_rate], ![pitch_rate]]

/-- The method `Ahrs::calc_estimate`. -/
noncomputable def calc_estimate (_self : Ahrs ℝ) (acc_read : sensor_readout ℝ) :
    array_2d ℝ 2 1 :=
  let roll_estimate := calc_roll acc_read
  let pitch_estitmate := calc_pitch acc_read
  ![![roll_estimate], ![pitch_estitmate]]

/-- The method `Ahrs::update()`. `kalman_update` is `Kalman::update`; `gr`, `ar`, `mr` are
the readings `gyro.read()`, `acc.read()`, `mag.read()`. The result is the returned readout
and the estimator after the call. -/
noncomputable def update (kalman_update : KalmanStep ℝ) (self : Ahrs ℝ)
    (gr ar mr : sensor_readout ℝ) : Option (sensor_readout ℝ × Ahrs ℝ) := do
  let system_input_vector := self.calc_euler_angles_rates gr
  let estimate_vector := self.calc_estimate ar
  let (state_vector, kalman) := kalman_update self.kalman system_input_vector estimate_vector
  let roll ← get_roll_from_state_vector state_vector
  let pitch ← get_pitch_from_state_vector state_vector
  let yaw := calc_yaw roll pitch mr
  let state : sensor_readout ℝ := ⟨to_deg roll, to_deg pitch, to_deg yaw⟩
  pure (state, { kalman := kalman, state := state })

/-- The overload `Ahrs::update(dt)`: `set_dt(dt)`, then `update()`. -/
noncomputable def update_dt (kalman_update : KalmanStep ℝ) (self : Ahrs ℝ) (dt : ℝ)
    (gr ar mr : sensor_readout ℝ) : Option (sensor_readout ℝ × Ahrs ℝ) := do
  let self ← self.set_dt dt
  self.update kalman_update gr ar mr

end Ahrs

/-! ## ahrs.hpp

The inline static members of the class declared in `ahrs.hpp`. They share their names with
the file-level functions of `ahrs.cpp` above and are not called by them. `std::atan` is
`Real.arctan`; a quotient with denominator 0 is 0 here, where the floating-point quotient is
infinite or not a number. -/

/-- The static member `Ahrs::calc_pitch(acc_x, acc_z)` of `ahrs.hpp`. -/
noncomputable def Ahrs.calc_pitch (acc_x acc_z : ℝ) : ℝ :=
  Real.arctan (acc_x / ((acc_x * acc_x) + (acc_z * acc_z)))

/-- The static member `Ahrs::calc_roll(acc_y, acc_z)` of `ahrs.hpp`. -/
noncomputable def Ahrs.calc_roll (acc_y acc_z : ℝ) : ℝ :=
  Real.arctan (acc_y / ((acc_y * acc_y) + (acc_z * acc_z)))

/-- The static member `Ahrs::calc_yaw(pitch, roll, mag_x, mag_y, mag_z)` of `ahrs.hpp`. -/
noncomputable def Ahrs.calc_yaw (pitch roll mag_x mag_y mag_z : ℝ) : ℝ :=
  let horizon_plane_x :=
    mag_x * Real.cos pitch + mag_y * Real.sin pitch * Real.sin roll +
      mag_z * Real.sin pitch + Real.cos roll
  let horizon_plane_y := mag_y * Real.cos roll + mag_z * Real.sin roll
  Real.arctan (-horizon_plane_y / horizon_plane_x)

/-! ## Auxiliary lemmas -/

theorem atan2_zero_of_nonneg {x : ℝ} (hx : 0 ≤ x) : atan2 0 x = 0 := by
  have h : (⟨x, 0⟩ : ℂ) = ((x : ℝ) : ℂ) := rfl
  rw [atan2, h, Complex.arg_ofReal_of_nonneg hx]

theorem atan2_polar {r t : ℝ} (hr : 0 < r) (ht : -Real.pi < t ∧ t ≤ Real.pi) :
    atan2 (r * Real.sin t) (r * Real.cos t) = t := by
  have h : (⟨r * Real.cos t, r * Real.sin t⟩ : ℂ) =
      (r : ℂ) * (Complex.cos (t : ℂ) + Complex.sin (t : ℂ) * Complex.I) := by
    apply Complex.ext <;> simp [← Complex.ofReal_cos, ← Complex.ofReal_sin]
  rw [atan2, h, Complex.arg_mul_cos_add_sin_mul_I hr ⟨ht.1, ht.2⟩]

theorem atan2_neg_of_pos_zero {m : ℝ} (hm : 0 < m) : atan2 (-m) 0 = -(Real.pi / 2) := by
  rw [atan2, Complex.arg_eq_neg_pi_div_two_iff]
  exact ⟨rfl, by simpa using hm⟩

theorem to_deg_zero : to_deg 0 = 0 := by simp [to_deg]

theorem to_deg_neg_half_pi : to_deg (-(Real.pi / 2)) = -90 := by
  have hpi := Real.pi_ne_zero
  rw [to_deg]; field_simp; ring

theorem calc_yaw_level (mag : sensor_readout ℝ) :
    calc_yaw 0 0 mag = atan2 (-mag.y) mag.x := by
  simp [calc_yaw]

theorem calc_roll_known_tilt (g t : ℝ) :
    calc_roll ⟨-g * Real.sin t, 0, g * Real.cos t⟩ = 0 := by
  simp only [calc_roll]
  exact atan2_zero_of_nonneg (Real.sqrt_nonneg _)

theorem calc_pitch_known_tilt {g t : ℝ} (hg : 0 < g)
    (ht : -(Real.pi / 2) < t ∧ t < Real.pi / 2) :
    calc_pitch ⟨-g * Real.sin t, 0, g * Real.cos t⟩ = t := by
  have hc : 0 < Real.cos t := Real.cos_pos_of_mem_Ioo ⟨ht.1, ht.2⟩
  have hpi := Real.pi_pos
  have h2 : Real.sqrt ((0 : ℝ) ^ 2 + (g * Real.cos t) ^ 2) = g * Real.cos t := by
    rw [zero_pow two_ne_zero, zero_add, Real.sqrt_sq (mul_pos hg hc).le]
  simp only [calc_pitch]
  rw [h2, show -(-g * Real.sin t) = g * Real.sin t by ring]
  exact atan2_polar hg ⟨by linarith, by linarith⟩

/-- The state vector accessors on a 4×1 array: both reads stay inside the array, offset 0 is
row 0 and offset 2 is row 2. -/
theorem get_from_state_vector_eq (sv : array_2d ℝ 4 1) :
    get_roll_from_state_vector sv = some (sv 0 0) ∧
      get_pitch_from_state_vector sv = some (sv 2 0) := by
  constructor <;>
    simp [get_roll_from_state_vector, get_pitch_from_state_vector, array_2d.read,
      array_2d.offset]

/-- One cycle of `update`, written out. -/
theorem update_eq (kalman_update : KalmanStep ℝ) (self : Ahrs ℝ)
    (gr ar mr : sensor_readout ℝ) :
    self.update kalman_update gr ar mr =
      some
        (⟨to_deg ((kalman_update self.kalman (self.calc_euler_angles_rates gr)
              (self.calc_estimate ar)).1 0 0),
          to_deg ((kalman_update self.kalman (self.calc_euler_angles_rates gr)
              (self.calc_estimate ar)).1 2 0),
          to_deg (calc_yaw
            ((kalman_update self.kalman (self.calc_euler_angles_rates gr)
              (self.calc_estimate ar)).1 0 0)
            ((kalman_update self.kalman (self.calc_euler_angles_rates gr)
              (self.calc_estimate ar)).1 2 0) mr)⟩,
         { kalman := (kalman_update self.kalman (self.calc_euler_angles_rates gr)
              (self.calc_estimate ar)).2
           state :=
            ⟨to_deg ((kalman_update self.kalman (self.calc_euler_angles_rates gr)
                (self.calc_estimate ar)).1 0 0),
              to_deg ((kalman_update self.kalman (self.calc_euler_angles_rates gr)
                (self.calc_estimate ar)).1 2 0),
              to_deg (calc_yaw
                ((kalman_update self.kalman (self.calc_euler_angles_rates gr)
                  (self.calc_estimate ar)).1 0 0)
                ((kalman_update self.kalman (self.calc_euler_angles_rates gr)
                  (self.calc_estimate ar)).1 2 0) mr)⟩ }) := by
  simp [Ahrs.update, get_roll_from_state_vector, get_pitch_from_state_vector, array_2d.read,
    array_2d.offset, bind, pure]

/-- The method `set_dt` always completes, and this is the estimator it leaves. -/
theorem set_dt_eq (s : Ahrs ℝ) (dt : ℝ) :
    s.set_dt dt =
      some
        { kalman :=
            { A := fun r c =>
                if (r.val = 0 ∧ c.val = 1) ∨ (r.val = 2 ∧ c.val = 3) then -dt
                else s.kalman.A r c
              B := fun r c =>
                if (r.val = 0 ∧ c.val = 0) ∨ (r.val = 2 ∧ c.val = 1) then dt
                else s.kalman.B r c
              H := s.kalman.H, P := s.kalman.P, Q := s.kalman.Q, R := s.kalman.R
              x := s.kalman.x }
          state := s.state } := by
  simp only [Ahrs.set_dt, array_2d.write, array_2d.offset]
  simp only [bind, pure, Option.bind]
  norm_num
  refine ⟨?_, ?_⟩
  · funext r c
    fin_cases r <;> fin_cases c <;> simp
  · funext r c
    fin_cases r <;> fin_cases c <;> simp

/-! ## The claims -/

/-- Claim C1. For every roll, pitch and magnetometer reading `(mx, my, mz)`, `calc_yaw` is
`atan2(-hy, hx)` with `hx = mx·cos(pitch) + my·sin(pitch)·sin(roll) + mz·sin(pitch)·cos(roll)`
and `hy = my·cos(roll) − mz·sin(roll)`; and in every cycle `update` returns as its yaw the
conversion to degrees of `calc_yaw` at the roll and pitch read from the state vector of the
Kalman step and at the magnetometer reading. -/
theorem calc_yaw_tilt_compensated (roll pitch mx my mz : ℝ) (kalman_update : KalmanStep ℝ)
    (self : Ahrs ℝ) (gr ar mr : sensor_readout ℝ) :
    calc_yaw roll pitch ⟨mx, my, mz⟩ =
        atan2 (-(my * Real.cos roll - mz * Real.sin roll))
          (mx * Real.cos pitch + my * Real.sin pitch * Real.sin roll +
            mz * Real.sin pitch * Real.cos roll) ∧
      ∃ (r p : ℝ) (out : sensor_readout ℝ) (s : Ahrs ℝ),
        get_roll_from_state_vector
            (kalman_update self.kalman (self.calc_euler_angles_rates gr)
              (self.calc_estimate ar)).1 = some r ∧
          get_pitch_from_state_vector
            (kalman_update self.kalman (self.calc_euler_angles_rates gr)
              (self.calc_estimate ar)).1 = some p ∧
          self.update kalman_update gr ar mr = some (out, s) ∧
          out.z = to_deg (calc_yaw r p mr) := by
  refine ⟨rfl, _, _, _, _, (get_from_state_vector_eq _).1, (get_from_state_vector_eq _).2,
    update_eq kalman_update self gr ar mr, rfl⟩

/-- Claim C2. For `g > 0` and a tilt `t` with `-π/2 < t < π/2`, the accelerometer reading
`(-g·sin t, 0, g·cos t)` makes `calc_estimate` return the measurement `[0, t]`; the reading
of the 30° example gives `[0, π/6]`, which is 30 degrees, and the reading `(0, 0, g)` gives
`[0, 0]`. -/
theorem calc_estimate_known_tilt (g t : ℝ) (hg : 0 < g)
    (ht : -(Real.pi / 2) < t ∧ t < Real.pi / 2) (self : Ahrs ℝ) :
    self.calc_estimate ⟨-g * Real.sin t, 0, g * Real.cos t⟩ = ![![0], ![t]] ∧
      self.calc_estimate ⟨-g * Real.sin (Real.pi / 6), 0, g * Real.cos (Real.pi / 6)⟩ =
        ![![0], ![Real.pi / 6]] ∧
      to_deg (Real.pi / 6) = 30 ∧
      self.calc_estimate ⟨0, 0, g⟩ = ![![0], ![0]] := by
  have hpi := Real.pi_pos
  refine ⟨?_, ?_, ?_, ?_⟩
  · simp only [Ahrs.calc_estimate, calc_roll_known_tilt, calc_pitch_known_tilt hg ht]
  · simp only [Ahrs.calc_estimate, calc_roll_known_tilt,
      calc_pitch_known_tilt hg (t := Real.pi / 6) ⟨by linarith, by linarith⟩]
  · rw [to_deg]; field_simp; ring
  · have h0 := calc_pitch_known_tilt hg (t := 0) ⟨by linarith, by linarith⟩
    have h1 := calc_roll_known_tilt g 0
    simp only [Real.sin_zero, Real.cos_zero, mul_zero, mul_one] at h0 h1
    simp only [Ahrs.calc_estimate, h0, h1]

/-- The known-tilt claim at `g = 1`, `t = π/6`, on an estimator built with interval 1. -/
theorem calc_estimate_known_tilt_witness :
    (0 : ℝ) < 1 ∧ (-(Real.pi / 2) < Real.pi / 6 ∧ Real.pi / 6 < Real.pi / 2) ∧
      ((Ahrs.ctor (1 : ℝ) 0 0 0 0 ⟨0, 0, 0⟩).calc_estimate
            ⟨-1 * Real.sin (Real.pi / 6), 0, 1 * Real.cos (Real.pi / 6)⟩ =
          ![![0], ![Real.pi / 6]] ∧
        (Ahrs.ctor (1 : ℝ) 0 0 0 0 ⟨0, 0, 0⟩).calc_estimate
            ⟨-1 * Real.sin (Real.pi / 6), 0, 1 * Real.cos (Real.pi / 6)⟩ =
          ![![0], ![Real.pi / 6]] ∧
        to_deg (Real.pi / 6) = 30 ∧
        (Ahrs.ctor (1 : ℝ) 0 0 0 0 ⟨0, 0, 0⟩).calc_estimate ⟨0, 0, 1⟩ = ![![0], ![0]]) :=
  ⟨one_pos, ⟨by linarith [Real.pi_pos], by linarith [Real.pi_pos]⟩,
    calc_estimate_known_tilt 1 (Real.pi / 6) one_pos
      ⟨by linarith [Real.pi_pos], by linarith [Real.pi_pos]⟩ _⟩

/-- Claim C3. At level attitude (roll = pitch = 0) and for `m > 0`, `calc_yaw` is 0 (0
degrees) for the magnetometer reading `(m, 0, 0)` and `-π/2` (−90 degrees) for `(0, m, 0)`;
for every reading `(mx, my, mz)` it is `atan2(-my, mx)`, whatever `mz` is. -/
theorem calc_yaw_level_attitude (m mx my mz : ℝ) (hm : 0 < m) :
    calc_yaw 0 0 ⟨m, 0, 0⟩ = 0 ∧ to_deg (calc_yaw 0 0 ⟨m, 0, 0⟩) = 0 ∧
      calc_yaw 0 0 ⟨0, m, 0⟩ = -(Real.pi / 2) ∧ to_deg (calc_yaw 0 0 ⟨0, m, 0⟩) = -90 ∧
      calc_yaw 0 0 ⟨mx, my, mz⟩ = atan2 (-my) mx := by
  have h1 : calc_yaw 0 0 ⟨m, 0, 0⟩ = 0 := by
    rw [calc_yaw_level]; simpa using atan2_zero_of_nonneg hm.le
  have h2 : calc_yaw 0 0 ⟨0, m, 0⟩ = -(Real.pi / 2) := by
    rw [calc_yaw_level]; exact atan2_neg_of_pos_zero hm
  refine ⟨h1, ?_, h2, ?_, calc_yaw_level _⟩
  · rw [h1, to_deg_zero]
  · rw [h2, to_deg_neg_half_pi]

/-- The level-attitude claim at the readings `(1, 0, 0)` and `(0, 1, 0)` of the spec. -/
theorem calc_yaw_level_attitude_witness :
    (0 : ℝ) < 1 ∧
      (calc_yaw 0 0 ⟨1, 0, 0⟩ = 0 ∧ to_deg (calc_yaw 0 0 ⟨1, 0, 0⟩) = 0 ∧
        calc_yaw 0 0 ⟨0, 1, 0⟩ = -(Real.pi / 2) ∧ to_deg (calc_yaw 0 0 ⟨0, 1, 0⟩) = -90 ∧
        calc_yaw 0 0 ⟨3, 4, 5⟩ = atan2 (-4) 3) :=
  ⟨one_pos, calc_yaw_level_attitude 1 3 4 5 one_pos⟩

/-- Claim C4. For every estimator and every `dt`, `set_dt(dt)` completes and leaves
`A[0][1] = A[2][3] = -dt` and `B[0][0] = B[2][1] = dt`; every other entry of `A` and of `B`,
the matrices `H`, `P`, `Q`, `R`, the state vector of the filter and the stored last output
are the ones before the call. -/
theorem set_dt_frame (self : Ahrs ℝ) (dt : ℝ) :
    ∃ s : Ahrs ℝ, self.set_dt dt = some s ∧
      s.kalman.A 0 1 = -dt ∧ s.kalman.A 2 3 = -dt ∧
      s.kalman.B 0 0 = dt ∧ s.kalman.B 2 1 = dt ∧
      (∀ i j : Fin 4, s.kalman.A i j =
        if (i = 0 ∧ j = 1) ∨ (i = 2 ∧ j = 3) then -dt else self.kalman.A i j) ∧
      (∀ (i : Fin 4) (j : Fin 2), s.kalman.B i j =
        if (i = 0 ∧ j = 0) ∨ (i = 2 ∧ j = 1) then dt else self.kalman.B i j) ∧
      s.kalman.H = self.kalman.H ∧ s.kalman.P = self.kalman.P ∧
      s.kalman.Q = self.kalman.Q ∧ s.kalman.R = self.kalman.R ∧
      s.kalman.x = self.kalman.x ∧ s.state = self.state := by
  have h3 : ((3 : Fin 4) : ℕ) = 3 := rfl
  refine ⟨_, set_dt_eq self dt, by simp, by simp [h3], by simp, by simp, ?_, ?_,
    rfl, rfl, rfl, rfl, rfl, rfl⟩
  · intro i j
    fin_cases i <;> fin_cases j <;> simp
  · intro i j
    fin_cases i <;> fin_cases j <;> simp

/-- Claim C5. An estimator constructed with interval `dt0` has, after `set_dt(dt)`, the
matrices `A = make_A(dt)` and `B = make_B(dt)`, and is the estimator the same construction
with interval `dt` gives. -/
theorem set_dt_consistent_with_construction (dt0 dt : ℝ) (P Q : array_2d ℝ 4 4)
    (R : array_2d ℝ 2 2) (x : array_2d ℝ 4 1) (state : sensor_readout ℝ) :
    (Ahrs.ctor dt0 P Q R x state).kalman.A = make_A dt0 ∧
      (Ahrs.ctor dt0 P Q R x state).kalman.B = make_B dt0 ∧
      ∃ s : Ahrs ℝ, (Ahrs.ctor dt0 P Q R x state).set_dt dt = some s ∧
        s.kalman.A = make_A dt ∧ s.kalman.B = make_B dt ∧
        s = Ahrs.ctor dt P Q R x state := by
  have hA : (fun (r c : Fin 4) =>
      if (r.val = 0 ∧ c.val = 1) ∨ (r.val = 2 ∧ c.val = 3) then -dt
      else (make_A dt0 : array_2d ℝ 4 4) r c) = make_A dt := by
    funext r c
    fin_cases r <;> fin_cases c <;> simp [make_A]
  have hB : (fun (r : Fin 4) (c : Fin 2) =>
      if (r.val = 0 ∧ c.val = 0) ∨ (r.val = 2 ∧ c.val = 1) then dt
      else (make_B dt0 : array_2d ℝ 4 2) r c) = make_B dt := by
    funext r c
    fin_cases r <;> fin_cases c <;> simp [make_B]
  refine ⟨rfl, rfl, _, set_dt_eq _ dt, ?_, ?_, ?_⟩
  · exact hA
  · exact hB
  · simp only [Ahrs.ctor, hA, hB]

/-- Claim C6. From every estimator, `set_dt(dt1)` followed by `set_dt(dt2)` completes and
leaves the estimator that `set_dt(dt2)` alone leaves; in particular `set_dt(dt)` twice leaves
what `set_dt(dt)` once leaves. -/
theorem set_dt_last_write_wins (self : Ahrs ℝ) (dt1 dt2 dt : ℝ) :
    (∃ s : Ahrs ℝ, (self.set_dt dt1).bind (fun s1 => s1.set_dt dt2) = some s ∧
        self.set_dt dt2 = some s) ∧
      ∃ s : Ahrs ℝ, (self.set_dt dt).bind (fun s1 => s1.set_dt dt) = some s ∧
        self.set_dt dt = some s := by
  have key : ∀ a b : ℝ, (self.set_dt a).bind (fun s1 => s1.set_dt b) = self.set_dt b := by
    intro a b
    rw [set_dt_eq self a, Option.some_bind, set_dt_eq, set_dt_eq]
    congr 3
    · funext r c
      by_cases h : (r.val = 0 ∧ c.val = 1) ∨ (r.val = 2 ∧ c.val = 3) <;> simp [h]
    · funext r c
      by_cases h : (r.val = 0 ∧ c.val = 0) ∨ (r.val = 2 ∧ c.val = 1) <;> simp [h]
  exact ⟨⟨_, (key dt1 dt2).trans (set_dt_eq self dt2), set_dt_eq self dt2⟩,
    ⟨_, (key dt dt).trans (set_dt_eq self dt), set_dt_eq self dt⟩⟩

/-- Claim C7. With `sv` the state vector the Kalman step returns, `update` reads
`roll = sv[0][0]` and a pitch from `sv` (the element of row 2), and returns the readout
`(roll·180/π, pitch·180/π, yaw·180/π)` with `yaw = calc_yaw(roll, pitch, mr)`; the estimator
after the call stores exactly the returned readout, and holds the filter the Kalman step
left. -/
theorem update_returns_degrees_and_stores (kalman_update : KalmanStep ℝ) (self : Ahrs ℝ)
    (gr ar mr : sensor_readout ℝ) :
    ∃ (roll pitch : ℝ) (out : sensor_readout ℝ) (s : Ahrs ℝ),
      get_roll_from_state_vector
          (kalman_update self.kalman (self.calc_euler_angles_rates gr)
            (self.calc_estimate ar)).1 = some roll ∧
        get_pitch_from_state_vector
          (kalman_update self.kalman (self.calc_euler_angles_rates gr)
            (self.calc_estimate ar)).1 = some pitch ∧
        roll = (kalman_update self.kalman (self.calc_euler_angles_rates gr)
            (self.calc_estimate ar)).1 0 0 ∧
        pitch = (kalman_update self.kalman (self.calc_euler_angles_rates gr)
            (self.calc_estimate ar)).1 2 0 ∧
        self.update kalman_update gr ar mr = some (out, s) ∧
        out = ⟨roll * 180 / Real.pi, pitch * 180 / Real.pi,
          calc_yaw roll pitch mr * 180 / Real.pi⟩ ∧
        s.state = out ∧
        s.kalman = (kalman_update self.kalman (self.calc_euler_angles_rates gr)
            (self.calc_estimate ar)).2 := by
  refine ⟨_, _, _, _, (get_from_state_vector_eq _).1, (get_from_state_vector_eq _).2, rfl,
    rfl, update_eq kalman_update self gr ar mr, rfl, rfl, rfl⟩

/-- Claim C8. Over the reals, for all readouts `a`, `b`, `(a + b) - b == a`, and for every
readout `a` and scalar `s ≠ 0`, `(a * s) / s == a`. -/
theorem readout_inverse_operators (a b : sensor_readout ℝ) (s : ℝ) (hs : s ≠ 0) :
    ((a.op_add b).op_sub b).op_eq a = true ∧
      ((a.op_mul_scalar s).op_div_scalar s).op_eq a = true := by
  simp [sensor_readout.op_eq, sensor_readout.op_sub, sensor_readout.op_add,
    sensor_readout.op_div_scalar, sensor_readout.op_mul_scalar, sensor_readout.element_wise,
    sensor_readout.element_wise_scalar, hs]

/-- The inverse-operator claim at `a = (1, 2, 3)`, `b = (4, 5, 6)`, `s = 2`. -/
theorem readout_inverse_operators_witness :
    (2 : ℝ) ≠ 0 ∧
      ((((⟨1, 2, 3⟩ : sensor_readout ℝ).op_add ⟨4, 5, 6⟩).op_sub ⟨4, 5, 6⟩).op_eq ⟨1, 2, 3⟩
          = true ∧
        (((⟨1, 2, 3⟩ : sensor_readout ℝ).op_mul_scalar 2).op_div_scalar 2).op_eq ⟨1, 2, 3⟩
          = true) :=
  ⟨two_ne_zero, readout_inverse_operators ⟨1, 2, 3⟩ ⟨4, 5, 6⟩ 2 two_ne_zero⟩

/-- Claim C9. For every readout `a`, `a + a == a * 2`: the readout overload of `operator+`
and the scalar overload of `operator*` give the same readout, field by field. -/
theorem readout_add_self_eq_mul_two (a : sensor_readout ℝ) :
    (a.op_add a).op_eq (a.op_mul_scalar 2) = true ∧
      a.op_add a = ⟨a.x + a.x, a.y + a.y, a.z + a.z⟩ ∧
      a.op_mul_scalar 2 = ⟨a.x * 2, a.y * 2, a.z * 2⟩ := by
  refine ⟨?_, rfl, rfl⟩
  simp [sensor_readout.op_eq, sensor_readout.op_add, sensor_readout.op_mul_scalar,
    sensor_readout.element_wise, sensor_readout.element_wise_scalar, mul_two]

/-- Claim C10. For all readouts `a`, `b`, `a == b` is true exactly when the three fields are
equal, and `a != b` is true exactly when `a == b` is false. -/
theorem readout_equality_fieldwise (a b : sensor_readout ℝ) :
    (a.op_eq b = true ↔ a.x = b.x ∧ a.y = b.y ∧ a.z = b.z) ∧
      (a.op_ne b = true ↔ a.op_eq b = false) := by
  constructor
  · simp [sensor_readout.op_eq, and_assoc]
  · simp only [sensor_readout.op_eq, sensor_readout.op_ne, Bool.or_eq_true,
      Bool.and_eq_false_iff, decide_eq_true_eq, decide_eq_false_iff_not, ne_eq]

/-! ## Auxiliary lemmas for the header functions, the feedback and the bounds -/

theorem to_deg_pi_sq : to_deg (Real.pi ^ 2 / 180) = Real.pi := by
  have hpi := Real.pi_ne_zero
  rw [to_deg]; field_simp; ring

theorem atan2_abs_le_of_nonneg (y : ℝ) {x : ℝ} (hx : 0 ≤ x) :
    -(Real.pi / 2) ≤ atan2 y x ∧ atan2 y x ≤ Real.pi / 2 := by
  have h : |atan2 y x| ≤ Real.pi / 2 := by
    rw [atan2, Complex.abs_arg_le_pi_div_two_iff]; exact hx
  exact abs_le.mp h

theorem atan2_pos_zero {y : ℝ} (hy : 0 < y) : atan2 y 0 = Real.pi / 2 := by
  rw [atan2, Complex.arg_eq_pi_div_two_iff]
  exact ⟨rfl, hy⟩

/-- The control of the cycle after an `update`: the trigonometric functions are applied to
the stored output, which is `to_deg` of the roll and pitch of the Kalman step. -/
theorem rates_after_update (kalman_update : KalmanStep ℝ) (self : Ahrs ℝ)
    (gr ar mr g : sensor_readout ℝ) :
    ∃ (out : sensor_readout ℝ) (s : Ahrs ℝ),
      self.update kalman_update gr ar mr = some (out, s) ∧
      s.calc_euler_angles_rates g =
        ![![g.x +
              Real.sin (to_deg ((kalman_update self.kalman (self.calc_euler_angles_rates gr)
                  (self.calc_estimate ar)).1 0 0)) *
                Real.tan (to_deg ((kalman_update self.kalman (self.calc_euler_angles_rates gr)
                  (self.calc_estimate ar)).1 2 0)) * g.y +
              Real.cos (to_deg ((kalman_update self.kalman (self.calc_euler_angles_rates gr)
                  (self.calc_estimate ar)).1 0 0)) *
                Real.tan (to_deg ((kalman_update self.kalman (self.calc_euler_angles_rates gr)
                  (self.calc_estimate ar)).1 2 0)) * g.z],
          ![Real.cos (to_deg ((kalman_update self.kalman (self.calc_euler_angles_rates gr)
                  (self.calc_estimate ar)).1 0 0)) * g.y -
              Real.sin (to_deg ((kalman_update self.kalman (self.calc_euler_angles_rates gr)
                  (self.calc_estimate ar)).1 0 0)) * g.z]] :=
  ⟨_, _, update_eq kalman_update self gr ar mr, rfl⟩

/-! ## The claims on the header functions, the feedback and the bounds -/

/-- Claim C11 (defect of the code). At pitch = roll = 0 and the magnetometer reading
`(0, 1, 0)` the static `Ahrs::calc_yaw` of `ahrs.hpp` returns `-π/4`, while the
tilt-compensated heading `atan2(-hy, hx)`, which `calc_yaw` of `ahrs.cpp` computes, is
`-π/2`: the two functions disagree. -/
theorem hpp_calc_yaw_differs :
    Ahrs.calc_yaw 0 0 0 1 0 = -(Real.pi / 4) ∧
      calc_yaw 0 0 ⟨0, 1, 0⟩ = -(Real.pi / 2) ∧
      atan2 (-(1 * Real.cos 0 - 0 * Real.sin 0))
          (0 * Real.cos 0 + 1 * Real.sin 0 * Real.sin 0 + 0 * Real.sin 0 * Real.cos 0) =
        -(Real.pi / 2) ∧
      Ahrs.calc_yaw 0 0 0 1 0 ≠ calc_yaw 0 0 ⟨0, 1, 0⟩ := by
  have h1 : Ahrs.calc_yaw 0 0 0 1 0 = -(Real.pi / 4) := by
    simp [Ahrs.calc_yaw, Real.arctan_neg, Real.arctan_one]
  have h2 : calc_yaw 0 0 ⟨0, 1, 0⟩ = -(Real.pi / 2) := by
    rw [calc_yaw_level]; exact atan2_neg_of_pos_zero one_pos
  refine ⟨h1, h2, h2, ?_⟩
  rw [h1, h2]
  have := Real.pi_pos
  intro h
  linarith

/-- Claim C12 (defect of the code). On the known-tilt reading of 30° the static
`Ahrs::calc_pitch` of `ahrs.hpp` returns `arctan(-1/2)` for `g = 1`, whose absolute value is
not `π/6`, and `arctan(-1/4)` for `g = 2`, a different angle: the result is not the tilt and
depends on `g`. -/
theorem hpp_calc_pitch_known_tilt :
    Ahrs.calc_pitch (-1 * Real.sin (Real.pi / 6)) (1 * Real.cos (Real.pi / 6)) =
        Real.arctan (-(1 / 2)) ∧
      |Real.arctan (-(1 / 2))| ≠ Real.pi / 6 ∧
      Ahrs.calc_pitch (-2 * Real.sin (Real.pi / 6)) (2 * Real.cos (Real.pi / 6)) =
        Real.arctan (-(1 / 4)) ∧
      Real.arctan (-(1 / 4)) ≠ Real.arctan (-(1 / 2)) := by
  have h3 : Real.sqrt 3 * Real.sqrt 3 = 3 := Real.mul_self_sqrt (by norm_num)
  refine ⟨?_, ?_, ?_, ?_⟩
  · rw [Ahrs.calc_pitch, Real.sin_pi_div_six, Real.cos_pi_div_six]
    congr 1
    have hden : (-1 * (1 / 2) * (-1 * (1 / 2)) +
        1 * (Real.sqrt 3 / 2) * (1 * (Real.sqrt 3 / 2)) : ℝ) = 1 := by
      nlinarith [h3]
    rw [hden]; norm_num
  · have h0 : 0 ≤ Real.arctan (1 / 2) := by
      have := Real.arctan_strictMono (show (0 : ℝ) < 1 / 2 by norm_num)
      rw [Real.arctan_zero] at this
      exact this.le
    rw [Real.arctan_neg, abs_neg, abs_of_nonneg h0]
    intro h
    have h4 := Real.tan_arctan (1 / 2)
    rw [h, Real.tan_pi_div_six] at h4
    have h5 : Real.sqrt 3 = 2 := by
      have hpos : (0 : ℝ) < Real.sqrt 3 := Real.sqrt_pos.mpr (by norm_num)
      field_simp at h4
      linarith
    rw [h5] at h3
    norm_num at h3
  · rw [Ahrs.calc_pitch, Real.sin_pi_div_six, Real.cos_pi_div_six]
    congr 1
    have hden : (-2 * (1 / 2) * (-2 * (1 / 2)) +
        2 * (Real.sqrt 3 / 2) * (2 * (Real.sqrt 3 / 2)) : ℝ) = 4 := by
      nlinarith [h3]
    rw [hden]; norm_num
  · intro h
    have := Real.arctan_injective h
    norm_num at this

/-- Claim C13 (defect of the code). When the Kalman step of a cycle returns roll
`φ = π²/180` rad and pitch 0, `update` stores roll `π` (degrees), and on the gyro reading
`(0, 1, 0)` the next `calc_euler_angles_rates` returns `[0, -1]`, computed with `cos π`;
the transform at the attitude `φ` has pitch rate `cos φ · 1 − sin φ · 0`, which is
positive. -/
theorem euler_rates_use_stored_degrees :
    ∃ (out : sensor_readout ℝ) (s : Ahrs ℝ),
      (Ahrs.ctor (1 : ℝ) 0 0 0 0 ⟨0, 0, 0⟩).update
          (fun k _ _ => (![![Real.pi ^ 2 / 180], ![0], ![0], ![0]], k))
          ⟨0, 0, 0⟩ ⟨0, 0, 1⟩ ⟨1, 0, 0⟩ = some (out, s) ∧
        s.state.x = Real.pi ∧ s.state.y = 0 ∧
        s.calc_euler_angles_rates ⟨0, 1, 0⟩ = ![![0], ![-1]] ∧
        0 < Real.cos (Real.pi ^ 2 / 180) * 1 - Real.sin (Real.pi ^ 2 / 180) * 0 := by
  refine ⟨_, _, update_eq _ _ _ _ _, ?_, ?_, ?_, ?_⟩
  · exact to_deg_pi_sq
  · exact to_deg_zero
  · simp only [Ahrs.calc_euler_angles_rates]
    simp [to_deg_pi_sq, to_deg_zero]
  · have h1 := Real.pi_gt_three
    have h2 := Real.pi_lt_four
    have : 0 < Real.cos (Real.pi ^ 2 / 180) :=
      Real.cos_pos_of_mem_Ioo ⟨by nlinarith, by nlinarith⟩
    simpa using this

/-- Claim C14 (defect of the code). On every 4×1 state vector the access `sv[0][2]` of
`get_pitch_from_state_vector` has its column index out of range, so with checked accesses
the function takes the out-of-range branch; the access `sv[0][0]` of
`get_roll_from_state_vector` is in range, and so is row 2 column 0, the element the
unchecked access lands on. -/
theorem get_pitch_access_out_of_range (sv : array_2d ℝ 4 1) :
    get_pitch_from_state_vector_checked sv = none ∧
      array_2d.in_range 4 1 0 2 = false ∧
      get_roll_from_state_vector_checked sv = some (sv 0 0) ∧
      array_2d.read_checked sv 2 0 = some (sv 2 0) ∧
      get_pitch_from_state_vector sv = some (sv 2 0) := by
  refine ⟨?_, by decide, ?_, ?_, (get_from_state_vector_eq sv).2⟩
  · simp [get_pitch_from_state_vector_checked, array_2d.read_checked]
  · simp [get_roll_from_state_vector_checked, array_2d.read_checked]
  · simp [array_2d.read_checked]

/-- Claim C15. For every `dt`, state `[s0, s1, s2, s3]` and control `[u0, u1]`,
`make_A(dt)·s + make_B(dt)·u = [s0 − dt·s1 + dt·u0, s1, s2 − dt·s3 + dt·u1, s3]` and
`make_H()·s = [s0, s2]`. -/
theorem model_matrices_encode_dynamics (dt s0 s1 s2 s3 u0 u1 : ℝ) :
    array_2d.add (array_2d.mul (make_A dt) ![![s0], ![s1], ![s2], ![s3]])
        (array_2d.mul (make_B dt) ![![u0], ![u1]]) =
      ![![s0 - dt * s1 + dt * u0], ![s1], ![s2 - dt * s3 + dt * u1], ![s3]] ∧
    array_2d.mul make_H ![![s0], ![s1], ![s2], ![s3]] = ![![s0], ![s2]] := by
  constructor
  · funext i j
    fin_cases i <;> fin_cases j <;>
      simp [array_2d.add, array_2d.mul, make_A, make_B, Fin.sum_univ_four,
        Fin.sum_univ_two] <;>
      ring
  · funext i j
    fin_cases i <;> fin_cases j <;>
      simp [array_2d.mul, make_H, Fin.sum_univ_four]

/-- Claim C16. Whatever the stored previous output, the gyro reading `(0, 0, 0)` makes
`calc_euler_angles_rates` return `[0, 0]`, and the accelerometer reading `(0, 0, g)` makes
`calc_estimate` return `[0, 0]`, for every `g` and so for every `g > 0`. -/
theorem static_rest_inputs_zero (self : Ahrs ℝ) (g : ℝ) :
    self.calc_euler_angles_rates ⟨0, 0, 0⟩ = ![![0], ![0]] ∧
      self.calc_estimate ⟨0, 0, g⟩ = ![![0], ![0]] := by
  constructor
  · simp [Ahrs.calc_euler_angles_rates]
  · have h1 : calc_roll ⟨0, 0, g⟩ = 0 := by
      simp only [calc_roll]; exact atan2_zero_of_nonneg (Real.sqrt_nonneg _)
    have h2 : calc_pitch ⟨0, 0, g⟩ = 0 := by
      simp only [calc_pitch, neg_zero]; exact atan2_zero_of_nonneg (Real.sqrt_nonneg _)
    simp only [Ahrs.calc_estimate, h1, h2]

/-- Claim C18. For every accelerometer reading both entries of the measurement
`calc_estimate` returns lie in `[-π/2, π/2]`, and for `y > 0` the reading `(0, y, 0)` gives
the roll estimate `π/2`. -/
theorem calc_estimate_range (self : Ahrs ℝ) (acc : sensor_readout ℝ) (y : ℝ) (hy : 0 < y) :
    (-(Real.pi / 2) ≤ self.calc_estimate acc 0 0 ∧
        self.calc_estimate acc 0 0 ≤ Real.pi / 2) ∧
      (-(Real.pi / 2) ≤ self.calc_estimate acc 1 0 ∧
        self.calc_estimate acc 1 0 ≤ Real.pi / 2) ∧
      self.calc_estimate ⟨0, y, 0⟩ 0 0 = Real.pi / 2 := by
  refine ⟨atan2_abs_le_of_nonneg _ (Real.sqrt_nonneg _),
    atan2_abs_le_of_nonneg _ (Real.sqrt_nonneg _), ?_⟩
  show calc_roll ⟨0, y, 0⟩ = Real.pi / 2
  simp only [calc_roll]
  norm_num
  exact atan2_pos_zero hy

/-- The range claim at the reading `(1, 2, 3)` and at `y = 1`. -/
theorem calc_estimate_range_witness :
    (0 : ℝ) < 1 ∧
      ((-(Real.pi / 2) ≤ (Ahrs.ctor (1 : ℝ) 0 0 0 0 ⟨0, 0, 0⟩).calc_estimate ⟨1, 2, 3⟩ 0 0 ∧
          (Ahrs.ctor (1 : ℝ) 0 0 0 0 ⟨0, 0, 0⟩).calc_estimate ⟨1, 2, 3⟩ 0 0 ≤ Real.pi / 2) ∧
        (-(Real.pi / 2) ≤ (Ahrs.ctor (1 : ℝ) 0 0 0 0 ⟨0, 0, 0⟩).calc_estimate ⟨1, 2, 3⟩ 1 0 ∧
          (Ahrs.ctor (1 : ℝ) 0 0 0 0 ⟨0, 0, 0⟩).calc_estimate ⟨1, 2, 3⟩ 1 0 ≤ Real.pi / 2) ∧
        (Ahrs.ctor (1 : ℝ) 0 0 0 0 ⟨0, 0, 0⟩).calc_estimate ⟨0, 1, 0⟩ 0 0 = Real.pi / 2) :=
  ⟨one_pos, calc_estimate_range _ ⟨1, 2, 3⟩ 1 one_pos⟩

/-- Claim C20. When the stored previous output has roll 0 and pitch 0, for every gyro
reading `(gx, gy, gz)` the control `calc_euler_angles_rates` returns is `[gx, gy]`. -/
theorem euler_rates_passthrough_at_level (self : Ahrs ℝ) (gx gy gz : ℝ)
    (h : self.state.x = 0 ∧ self.state.y = 0) :
    self.calc_euler_angles_rates ⟨gx, gy, gz⟩ = ![![gx], ![gy]] := by
  simp [Ahrs.calc_euler_angles_rates, h.1, h.2]

/-- The pass-through claim on a stored output `(0, 0, 5)` and the gyro reading
`(1, 2, 3)`. -/
theorem euler_rates_passthrough_at_level_witness :
    ((Ahrs.ctor (1 : ℝ) 0 0 0 0 ⟨0, 0, 5⟩).state.x = 0 ∧
        (Ahrs.ctor (1 : ℝ) 0 0 0 0 ⟨0, 0, 5⟩).state.y = 0) ∧
      (Ahrs.ctor (1 : ℝ) 0 0 0 0 ⟨0, 0, 5⟩).calc_euler_angles_rates ⟨1, 2, 3⟩ =
        ![![1], ![2]] :=
  ⟨⟨rfl, rfl⟩, euler_rates_passthrough_at_level _ 1 2 3 ⟨rfl, rfl⟩⟩

end ahrs
